import Mathlib

/-!
Verification of the DU-speed analysis pipeline
(`Скрипты/analytics/extract_du_from_html.py`, `du_speed_analysis.py`,
`generate_extended_word_report.py`).

The development shallowly embeds the pipeline's data transformations:
calendar dates are records of numerals compared chronologically, Python
floats are modelled by `PyF` (a rational, NaN, or a signed infinity —
pandas treats NaN as a missing value), and the pandas DataFrame stages
become functions over lists of rows.  Cell-level parsing performed by
pandas library calls (`pd.to_datetime`, `pd.to_numeric`) is represented
by its outcome, recorded as `Option` fields of the raw-row record.
-/

set_option maxRecDepth 100000

namespace DuPipeline

/-- A calendar date, as carried by `datetime.date` values in the scripts. -/
structure Date where
  year : ℕ
  month : ℕ
  day : ℕ
deriving DecidableEq

/-- Chronological comparison of dates: `datetime.date` ordering is
lexicographic on (year, month, day). -/
def Date.le (a b : Date) : Prop :=
  a.year < b.year ∨
    (a.year = b.year ∧ (a.month < b.month ∨ (a.month = b.month ∧ a.day ≤ b.day)))

instance : DecidableRel Date.le := fun a b => by
  unfold Date.le
  infer_instance

/-- First scenario boundary: 2025-10-08 (inclusive upper bound of `Типовой`). -/
def boundary1 : Date := ⟨2025, 10, 8⟩

/-- Second scenario boundary: 2025-10-16 (inclusive upper bound of
`Без дублей обменов`). -/
def boundary2 : Date := ⟨2025, 10, 16⟩

/-- `assign_scenario` from `extract_du_from_html.py`: classify a date into a
scenario label by the two hard-coded boundaries. -/
def assign_scenario (date : Date) : String :=
  if Date.le date boundary1 then "Типовой"
  else if Date.le date boundary2 then "Без дублей обменов"
  else "Без дублей обменов + Параллельные портфели"

/-- Model of a Python/numpy double as it flows through pandas: a finite
rational, NaN (which pandas' `isna`/`dropna` treat as missing, so it also
stands for `pd.NA`), or a signed infinity. -/
inductive PyF where
  | na
  | fin (q : ℚ)
  | pinf
  | ninf
deriving DecidableEq

/-- `pd.isna` on a float cell: true exactly for NaN/NA (infinities are not
missing values). -/
def PyF.isNA : PyF → Bool
  | .na => true
  | _ => false

/-- IEEE-style subtraction on the float model (NaN propagates; `inf - inf` is
NaN). -/
def pySub : PyF → PyF → PyF
  | .na, _ => .na
  | _, .na => .na
  | .fin a, .fin b => .fin (a - b)
  | .pinf, .fin _ => .pinf
  | .fin _, .pinf => .ninf
  | .ninf, .fin _ => .ninf
  | .fin _, .ninf => .pinf
  | .pinf, .pinf => .na
  | .pinf, .ninf => .pinf
  | .ninf, .pinf => .ninf
  | .ninf, .ninf => .na

/-- IEEE-style multiplication on the float model (NaN propagates;
`inf * 0` is NaN). -/
def pyMul : PyF → PyF → PyF
  | .na, _ => .na
  | _, .na => .na
  | .fin a, .fin b => .fin (a * b)
  | .pinf, .fin b => if 0 < b then .pinf else if b < 0 then .ninf else .na
  | .fin a, .pinf => if 0 < a then .pinf else if a < 0 then .ninf else .na
  | .ninf, .fin b => if 0 < b then .ninf else if b < 0 then .pinf else .na
  | .fin a, .ninf => if 0 < a then .ninf else if a < 0 then .pinf else .na
  | .pinf, .pinf => .pinf
  | .pinf, .ninf => .ninf
  | .ninf, .pinf => .ninf
  | .ninf, .ninf => .pinf

/-- IEEE-style division on the float model: NaN propagates, a nonzero finite
numerator over zero gives a signed infinity, `0 / 0` gives NaN. -/
def pyDiv : PyF → PyF → PyF
  | .na, _ => .na
  | _, .na => .na
  | .fin b, .fin s =>
      if s ≠ 0 then .fin (b / s)
      else if 0 < b then .pinf
      else if b < 0 then .ninf
      else .na
  | .pinf, .fin s => if s < 0 then .ninf else .pinf
  | .ninf, .fin s => if s < 0 then .pinf else .ninf
  | .fin _, .pinf => .fin 0
  | .fin _, .ninf => .fin 0
  | .pinf, .pinf => .na
  | .pinf, .ninf => .na
  | .ninf, .pinf => .na
  | .ninf, .ninf => .na

/-- A row of the canonical store `data/du_tasks_times.csv`
(one `DailyMeasurement`): date, scenario label, minutes. -/
structure Row where
  date : Date
  scenario : String
  minutes : ℚ
deriving DecidableEq

/-- Chronological order on store rows, used by `sort_values("date")`. -/
def rowDateLe (a b : Row) : Prop := Date.le a.date b.date

instance : DecidableRel rowDateLe := fun a b => by
  unfold rowDateLe
  infer_instance

/-- One row of the main raw HTML table (`tables[3]`), after the column
renaming in `extract`.  The cell-level outcomes of the pandas library calls
used on it are recorded directly:

* `date_end` — the result of `pd.to_datetime(datetime_end,
  format="%d.%m.%Y %H:%M:%S", errors="coerce")`, reduced to its calendar
  date (`.dt.date`); `none` when the cell does not parse (`NaT`).
* `minutes_isna` — whether the raw duration cell is missing
  (the `df["minutes"].notna()` filter).
* `has_header_marker` — whether the duration cell's text contains the
  header marker string `Длительность`.
* `minutes_num` — the result of `pd.to_numeric` applied to the duration
  cell's text with space characters removed
  (`.astype(str).str.replace(" ", "")`, `errors="coerce"`); `none` when the
  stripped text is not numeric (NaN). -/
structure RawRow where
  date_end : Option Date
  minutes_isna : Bool
  has_header_marker : Bool
  minutes_num : Option ℚ
deriving DecidableEq

/-- A raw row survives the four successive filters of `extract`:
duration cell present, not a header artifact, end timestamp parses,
duration parses numerically. -/
def survives (r : RawRow) : Bool :=
  !r.minutes_isna && !r.has_header_marker && r.date_end.isSome && r.minutes_num.isSome

/-- Calendar date of a surviving row (the `date` column derived from
`date_end.dt.date`); the default is never reached on surviving rows. -/
def rowDate (r : RawRow) : Date := r.date_end.getD ⟨0, 0, 0⟩

/-- Parsed duration of a surviving row; the default is never reached on
surviving rows. -/
def rowMinutes (r : RawRow) : ℚ := r.minutes_num.getD 0

/-- The distinct calendar dates of the surviving rows, in chronological
order (`groupby("date")` sorts its keys). -/
def extractDates (rows : List RawRow) : List Date :=
  List.insertionSort Date.le
    (((rows.filter survives).map rowDate).dedup)

/-- Total minutes for one day: `groupby("date")["minutes"].sum()` over the
surviving rows. -/
def dayTotal (rows : List RawRow) (d : Date) : ℚ :=
  (((rows.filter survives).filter (fun r => decide (rowDate r = d))).map rowMinutes).sum

/-- `extract` from `extract_du_from_html.py`, given the parsed main table:
filter the raw rows, group by end-timestamp date, sum minutes per day and
attach the scenario label of the day. -/
def extract (rows : List RawRow) : List Row :=
  (extractDates rows).map (fun d => ⟨d, assign_scenario d, dayTotal rows d⟩)

/-- `extract` including its input precondition: the script raises
`FileNotFoundError` when the source HTML document is absent (`none`);
otherwise it returns the daily table.  There is no other raising branch. -/
def extractRun (input : Option (List RawRow)) : Except String (List Row) :=
  match input with
  | none => .error "HTML file not found"
  | some rows => .ok (extract rows)

/-- `%Y-%m-%d` rendering of a date (`dt.strftime` in `extract`). -/
def renderDate (d : Date) : String :=
  (if d.year < 10 then "000" else if d.year < 100 then "00"
   else if d.year < 1000 then "0" else "") ++ toString d.year ++ "-" ++
  (if d.month < 10 then "0" else "") ++ toString d.month ++ "-" ++
  (if d.day < 10 then "0" else "") ++ toString d.day

/-- One line of the canonical store as written by
`to_csv(sep=";", index=False)`. -/
def renderCsvLine (r : Row) : String :=
  renderDate r.date ++ ";" ++ r.scenario ++ ";" ++ toString r.minutes

/-- Full textual contents of the canonical store written by `main`:
header line then one line per daily row. -/
def storeContents (daily : List Row) : String :=
  "date;scenario;minutes\n" ++ String.join (daily.map (fun r => renderCsvLine r ++ "\n"))

/-- One run of `main` in `extract_du_from_html.py`, as a function of the raw
input (`none` = HTML file absent) and of the canonical store contents
before the run.  Returns the store contents after the run and the exit
code: on success the store is overwritten wholesale (`to_csv` truncates),
on failure the exception is caught, the store is left untouched, and the
exit code is 1. -/
def mainRun (input : Option (List RawRow)) (prevStore : Option String) :
    Option String × Int :=
  match extractRun input with
  | .error _ => (prevStore, 1)
  | .ok daily => (some (storeContents daily), 0)

/-- The baseline scenario label used by the aggregation and report stages. -/
def base_col : String := "Типовой"

/-- One cell of `pivot_table(index="date", columns="scenario",
values="minutes", aggfunc="mean")`: the mean of the minutes of the rows
with this date and scenario, `NaN` (absent) when there are none. -/
def pivotCell (df : List Row) (d : Date) (s : String) : Option ℚ :=
  let vs := (df.filter (fun r => decide (r.date = d) && decide (r.scenario = s))).map Row.minutes
  if vs.isEmpty then none else some (vs.sum / vs.length)

/-- The scenario columns of the pivot: the distinct scenario labels present
in the loaded data. -/
def pivotCols (df : List Row) : List String := (df.map Row.scenario).dedup

/-- The date index of the pivot: the distinct dates present in the loaded
data, in chronological order. -/
def pivotDates (df : List Row) : List Date :=
  List.insertionSort Date.le ((df.map Row.date).dedup)

/-- `pivot[base_col] / pivot[col]` at one date, with float semantics:
a missing operand gives NaN, division by zero gives an infinity
(or NaN for `0 / 0`). -/
def accelRaw (df : List Row) (d : Date) (s : String) : PyF :=
  match pivotCell df d base_col, pivotCell df d s with
  | some b, some v => pyDiv (.fin b) (.fin v)
  | _, _ => .na

/-- The `replace([pd.NA, pd.NaT, inf, -inf], pd.NA)` step of
`compute_acceleration`: infinities become missing values. -/
def replaceInfNA : PyF → PyF
  | .pinf => .na
  | .ninf => .na
  | x => x

/-- One cell of the acceleration frame after infinity replacement. -/
def accelCell (df : List Row) (d : Date) (s : String) : PyF :=
  replaceInfNA (accelRaw df d s)

/-- The date index of the acceleration frame after `dropna(how="all")`:
dates at which at least one non-baseline column is defined. -/
def accelDates (df : List Row) : List Date :=
  (pivotDates df).filter
    (fun d => ((pivotCols df).filter (fun s => !decide (s = base_col))).any
      (fun s => !(accelCell df d s).isNA))

/-- `compute_acceleration` from `du_speed_analysis.py`: pivot the loaded
data, require the baseline column, divide it by every other scenario
column, require at least one such column, replace infinities by missing
values, and drop dates at which every column is missing.  The result is
the per-date list of (scenario, ratio) cells. -/
def compute_acceleration (df : List Row) :
    Except String (List (Date × List (String × PyF))) :=
  if base_col ∈ pivotCols df then
    let others := (pivotCols df).filter (fun s => !decide (s = base_col))
    if others.isEmpty then
      .error "No alternative scenarios to compare against baseline."
    else
      .ok ((accelDates df).map (fun d => (d, others.map (fun s => (s, accelCell df d s)))))
  else
    .error "Baseline is required in the dataset to compute acceleration."

/-- The minutes series of one scenario, ordered by date
(`df[df["scenario"] == scenario].sort_values("date")["minutes"]`). -/
def scenarioSeries (df : List Row) (s : String) : List ℚ :=
  (List.insertionSort rowDateLe
    (df.filter (fun r => decide (r.scenario = s)))).map Row.minutes

/-- The trailing observation window `rolling(window)` sees at position `i`
of a series: the last `window` elements among the first `i + 1`. -/
def windowAt (window : ℕ) (xs : List ℚ) (i : ℕ) : List ℚ :=
  (xs.take (i + 1)).drop (i + 1 - window)

/-- Arithmetic mean of a list of rationals. -/
def listMean (xs : List ℚ) : ℚ := xs.sum / xs.length

/-- Sample variance with `ddof = 1` (the pandas default); only used where
`minPeriods` guarantees at least two observations.  The rolling standard
deviation of the source is its square root, defined at exactly the same
positions. -/
def sampleVar (xs : List ℚ) : ℚ :=
  (xs.map (fun x => (x - listMean xs) ^ 2)).sum / ((xs.length : ℚ) - 1)

/-- `series.rolling(window, min_periods=minPeriods)` followed by an
aggregation `f`: at each position, the aggregate of the trailing window
when it holds at least `minPeriods` observations, otherwise NaN (`none`).
The input series has no missing values (the loader dropped them), so the
observation count is the window length. -/
def rollingApply (window minPeriods : ℕ) (f : List ℚ → ℚ) (xs : List ℚ) :
    List (Option ℚ) :=
  (List.range xs.length).map fun i =>
    let w := windowAt window xs i
    if minPeriods ≤ w.length then some (f w) else none

/-- Trailing rolling mean. -/
def rollingMean (window minPeriods : ℕ) (xs : List ℚ) : List (Option ℚ) :=
  rollingApply window minPeriods listMean xs

/-- The rolling series drawn by `plot_rolling_avg` in `du_speed_analysis.py`
for one scenario: `rolling(window, min_periods=max(1, window // 2)).mean()`
over that scenario's date-sorted minutes. -/
def plot_rolling_avg_roll (df : List Row) (window : ℕ) (s : String) :
    List (Option ℚ) :=
  rollingMean window (max 1 (window / 2)) (scenarioSeries df s)

/-- The rolling series drawn by `chart_04_rolling_avg` in
`generate_extended_word_report.py` for one scenario:
`rolling(7, min_periods=3).mean()`. -/
def chart_04_roll (df : List Row) (s : String) : List (Option ℚ) :=
  rollingMean 7 3 (scenarioSeries df s)

/-- The rolling variance underlying the volatility chart
(`rolling(7, min_periods=3).std()` at line 378 of the extended report);
the plotted standard deviation is its square root, with identical
definedness. -/
def chart_11_rollvar (df : List Row) (s : String) : List (Option ℚ) :=
  rollingApply 7 3 sampleVar (scenarioSeries df s)

/-- Day number of a calendar date with epoch 1970-01-01 (a Thursday); the
standard civil-calendar conversion. -/
def toDayNumber (dt : Date) : ℤ :=
  let y : ℤ := if dt.month ≤ 2 then (dt.year : ℤ) - 1 else (dt.year : ℤ)
  let era : ℤ := y.fdiv 400
  let yoe : ℤ := y - era * 400
  let doy : ℤ :=
    (153 * (if dt.month ≤ 2 then (dt.month : ℤ) + 9 else (dt.month : ℤ) - 3) + 2).fdiv 5
      + (dt.day : ℤ) - 1
  let doe : ℤ := yoe * 365 + yoe.fdiv 4 - yoe.fdiv 100 + doy
  era * 146097 + doe - 719468

/-- Index of the calendar week a date belongs to under pandas
`resample("W")` (weeks ending Sunday): two dates share a week exactly when
they fall in the same Monday-to-Sunday span. -/
def weekOf (d : Date) : ℤ := (toDayNumber d + 3).fdiv 7

/-- The `n` consecutive integers starting at `lo`, ascending. -/
def intRange (lo : ℤ) : ℕ → List ℤ
  | 0 => []
  | n + 1 => lo :: intRange (lo + 1) n

/-- The consecutive week indices from the first to the last of a nonempty
list (the index generated by `resample("W")` spans the full date range,
including weeks with no samples). -/
def weekRange (ws : List ℤ) : List ℤ :=
  match ws with
  | [] => []
  | w :: rest =>
    let lo := rest.foldl min w
    let hi := rest.foldl max w
    intRange lo (hi - lo + 1).toNat

/-- The acceleration samples of one scenario column: one (date, cell) pair
per date of the acceleration frame. -/
def accelSamples (df : List Row) (s : String) : List (Date × PyF) :=
  (accelDates df).map (fun d => (d, accelCell df d s))

/-- The week indices of the weekly-resampled acceleration frame. -/
def weeklyWeeks (df : List Row) : List ℤ :=
  weekRange ((accelDates df).map weekOf)

/-- The defined (non-missing) sample values of a column that fall in week
`w`.  The column holds no infinities (they were replaced by `NaN` in
`compute_acceleration`), so the non-missing values are exactly the finite
ones. -/
def weekFinValues (samples : List (Date × PyF)) (w : ℤ) : List ℚ :=
  samples.filterMap fun p =>
    if weekOf p.1 = w then
      match p.2 with
      | .fin q => some q
      | _ => none
    else none

/-- Mean of one resampled week (`resample("W").mean()`, which skips missing
values): NaN when the week holds no defined sample. -/
def weeklyValue (samples : List (Date × PyF)) (w : ℤ) : PyF :=
  let vs := weekFinValues samples w
  if vs.isEmpty then .na else .fin (vs.sum / vs.length)

/-- The weekly series drawn by `plot_weekly_acceleration` for one scenario
column: `accel.resample("W").mean()`. -/
def plot_weekly_accel (df : List Row) (s : String) : List (ℤ × PyF) :=
  (weeklyWeeks df).map (fun w => (w, weeklyValue (accelSamples df s) w))

/-- The distinct scenario labels of the loaded data, as iterated by
`df["scenario"].unique()` in the report stage. -/
def uniqueScenarios (df : List Row) : List String := (df.map Row.scenario).dedup

/-- The minutes of one scenario (`df[df["scenario"] == s]["minutes"]`),
order irrelevant for the means used below. -/
def scenarioMinutes (df : List Row) (s : String) : List ℚ :=
  (df.filter (fun r => decide (r.scenario = s))).map Row.minutes

/-- `Series.mean()`: NaN on an empty selection. -/
def pyMean (xs : List ℚ) : PyF :=
  if xs.isEmpty then .na else .fin (xs.sum / xs.length)

/-- The improvement formula of the extended report,
`((base_mean - mean_val) / base_mean) * 100`, in float semantics. -/
def improvementExpr (baseMean m : PyF) : PyF :=
  pyMul (pyDiv (pySub baseMean m) baseMean) (.fin 100)

/-- The data computed by `chart_19_improvement_bars`: one improvement value
per non-baseline scenario.  The function performs no baseline-presence
check and has no raising branch, hence always `.ok`; when the baseline is
absent, `base_mean` is the mean of an empty selection (NaN). -/
def chart_19_improvement_bars (df : List Row) :
    Except String (List (String × PyF)) :=
  let baseMean := pyMean (scenarioMinutes df base_col)
  .ok (((uniqueScenarios df).filter (fun s => !decide (s = base_col))).map
    (fun s => (s, improvementExpr baseMean (pyMean (scenarioMinutes df s)))))

/-- The `improvement_pct` entry of `calculate_statistics` for a scenario:
present (`some`) exactly when the baseline is among the loaded scenarios
and the scenario is not the baseline; the baseline itself, and every
scenario when the baseline is absent, get no entry. -/
def statsImprovement (df : List Row) (s : String) : Option PyF :=
  if base_col ∈ uniqueScenarios df ∧ s ≠ base_col then
    some (improvementExpr (pyMean (scenarioMinutes df base_col))
      (pyMean (scenarioMinutes df s)))
  else none

/-- The value rendered in the `Улучш.%` column of the statistics table of
`create_word_document`: `stat.get("improvement_pct", 0)` — the improvement
entry when present, the literal `0` otherwise. -/
def improvementCellValue (df : List Row) (s : String) : PyF :=
  (statsImprovement df s).getD (.fin 0)

theorem pySub_na_left (x : PyF) : pySub .na x = .na := by cases x <;> rfl

theorem pySub_na_right (x : PyF) : pySub x .na = .na := by cases x <;> rfl

theorem pyMul_na_left (x : PyF) : pyMul .na x = .na := by cases x <;> rfl

theorem pyDiv_na_left (x : PyF) : pyDiv .na x = .na := by cases x <;> rfl

theorem pyDiv_na_right (x : PyF) : pyDiv x .na = .na := by cases x <;> rfl

theorem replaceInfNA_ne_inf (x : PyF) :
    replaceInfNA x ≠ .pinf ∧ replaceInfNA x ≠ .ninf := by
  cases x <;> simp [replaceInfNA]

theorem isNA_eq_false_iff (x : PyF) : x.isNA = false ↔ x ≠ .na := by
  cases x <;> simp [PyF.isNA]

theorem date_le_boundary_mono (d : Date) (h : Date.le d boundary1) :
    Date.le d boundary2 := by
  simp only [Date.le, boundary1, boundary2] at *
  omega

/-- C5: scenario classification is a pure, total, deterministic function of
the date: every date gets exactly one of the three labels, the ranges cut
out by the two ordered inclusive upper bounds are non-overlapping and
exhaustive, and the last range is open-ended (every date past the second
boundary maps to the last label). -/
theorem assign_scenario_partition (d : Date) :
    (assign_scenario d = "Типовой" ↔ Date.le d boundary1)
  ∧ (assign_scenario d = "Без дублей обменов" ↔
      (¬ Date.le d boundary1 ∧ Date.le d boundary2))
  ∧ (assign_scenario d = "Без дублей обменов + Параллельные портфели" ↔
      ¬ Date.le d boundary2)
  ∧ (assign_scenario d = "Типовой" ∨ assign_scenario d = "Без дублей обменов"
      ∨ assign_scenario d = "Без дублей обменов + Параллельные портфели") := by
  have ne12 : ("Типовой" : String) ≠ "Без дублей обменов" := by decide
  have ne13 : ("Типовой" : String) ≠ "Без дублей обменов + Параллельные портфели" := by
    decide
  have ne23 : ("Без дублей обменов" : String) ≠
      "Без дублей обменов + Параллельные портфели" := by decide
  unfold assign_scenario
  split_ifs with h1 h2
  · exact ⟨by simp [h1], by simp [ne12, h1], by simp [ne13, date_le_boundary_mono d h1],
      Or.inl rfl⟩
  · exact ⟨by simp [ne12.symm, h1], by simp [h1, h2], by simp [ne23, h2],
      Or.inr (Or.inl rfl)⟩
  · exact ⟨by simp [ne13.symm, h1], by simp [ne23.symm, h2], by simp [h2],
      Or.inr (Or.inr rfl)⟩

/-- C1: at every date of the pivoted matrix and every non-baseline scenario
column, the acceleration cell equals `baseline / scenario` when both
operands are present and the scenario minutes are nonzero; it is missing
(never an infinity) when the scenario minutes are zero or either operand is
missing; and a date stays in the acceleration output exactly when some
non-baseline column is defined there. -/
theorem compute_acceleration_cells (df : List Row) (d : Date) (s : String) :
    (∀ b v : ℚ, pivotCell df d base_col = some b → pivotCell df d s = some v →
      v ≠ 0 → accelCell df d s = .fin (b / v))
  ∧ (pivotCell df d base_col = none → accelCell df d s = .na)
  ∧ (pivotCell df d s = none → accelCell df d s = .na)
  ∧ (pivotCell df d s = some 0 → accelCell df d s = .na)
  ∧ accelCell df d s ≠ .pinf ∧ accelCell df d s ≠ .ninf
  ∧ (d ∈ accelDates df ↔ d ∈ pivotDates df ∧
      ∃ t ∈ pivotCols df, t ≠ base_col ∧ accelCell df d t ≠ .na) := by
  refine ⟨?_, ?_, ?_, ?_, (replaceInfNA_ne_inf _).1, (replaceInfNA_ne_inf _).2, ?_⟩
  · intro b v hb hv hv0
    simp [accelCell, accelRaw, hb, hv, pyDiv, hv0, replaceInfNA]
  · intro hb
    cases hs : pivotCell df d s <;>
      simp [accelCell, accelRaw, hb, hs, replaceInfNA]
  · intro hs
    cases hb : pivotCell df d base_col <;>
      simp [accelCell, accelRaw, hb, hs, replaceInfNA]
  · intro hs
    cases hb : pivotCell df d base_col with
    | none => simp [accelCell, accelRaw, hb, hs, replaceInfNA]
    | some b =>
      simp only [accelCell, accelRaw, hb, hs, pyDiv, ne_eq, not_true_eq_false,
        if_false]
      split_ifs <;> rfl
  · simp only [accelDates, List.mem_filter, List.any_eq_true, List.mem_filter,
      Bool.not_eq_true', decide_eq_false_iff_not, isNA_eq_false_iff, Bool.and_eq_true,
      decide_eq_true_eq]
    constructor
    · rintro ⟨hd, t, ⟨ht, htb⟩, hna⟩
      exact ⟨hd, t, ht, htb, hna⟩
    · rintro ⟨hd, t, ht, htb, hna⟩
      exact ⟨hd, t, ⟨ht, htb⟩, hna⟩

/-- C2: the aggregation stage raises (rather than returning a result)
exactly when the baseline scenario is absent from the loaded data or every
loaded scenario is the baseline (no comparison column). -/
theorem compute_acceleration_error_iff (df : List Row) :
    (∃ e, compute_acceleration df = .error e) ↔
      (base_col ∉ df.map Row.scenario ∨ ∀ s ∈ df.map Row.scenario, s = base_col) := by
  unfold compute_acceleration
  by_cases hb : base_col ∈ pivotCols df
  · simp only [hb, if_true]
    by_cases he : ((pivotCols df).filter (fun s => !decide (s = base_col))).isEmpty
    · simp only [he, if_true]
      constructor
      · intro _
        refine Or.inr fun s hs => ?_
        have := List.isEmpty_iff.mp he
        by_contra hne
        have hmem : s ∈ (pivotCols df).filter (fun s => !decide (s = base_col)) := by
          rw [List.mem_filter]
          exact ⟨List.mem_dedup.mpr hs, by simp [hne]⟩
        rw [this] at hmem
        cases hmem
      · intro _
        exact ⟨_, rfl⟩
    · simp only [he, if_false]
      constructor
      · rintro ⟨e, he'⟩
        cases he'
      · rintro (h | h)
        · exact absurd (List.mem_dedup.mp hb) h
        · exfalso
          rcases (by simpa using he : ∃ x ∈ pivotCols df, ¬x = base_col) with
            ⟨t, ht, htb⟩
          exact htb (h t (List.mem_dedup.mp ht))
  · simp only [hb, if_false]
    constructor
    · intro _
      exact Or.inl fun hc => hb (List.mem_dedup.mpr hc)
    · intro _
      exact ⟨_, rfl⟩

theorem windowAt_length (window : ℕ) (xs : List ℚ) (i : ℕ) (h : i < xs.length) :
    (windowAt window xs i).length = min (i + 1) window := by
  simp only [windowAt, List.length_drop, List.length_take]
  omega

theorem rollingApply_getElem? (window minPeriods : ℕ) (f : List ℚ → ℚ)
    (xs : List ℚ) (i : ℕ) :
    (rollingApply window minPeriods f xs)[i]? =
      if i < xs.length then
        some (if minPeriods ≤ min (i + 1) window
          then some (f (windowAt window xs i)) else none)
      else none := by
  unfold rollingApply
  rw [List.getElem?_map]
  rcases Nat.lt_or_ge i xs.length with h | h
  · rw [List.getElem?_range h, if_pos h, Option.map_some']
    show some (if minPeriods ≤ (windowAt window xs i).length
      then some (f (windowAt window xs i)) else none) = _
    rw [windowAt_length window xs i h]
  · rw [if_neg (Nat.not_lt.mpr h), List.getElem?_eq_none (by simpa using h),
      Option.map_none']

/-- C3: per scenario, the trailing 7-observation rolling mean (and the
rolling variance underlying the rolling standard deviation) is defined at a
position exactly when the window there holds at least 3 observations
(`max 1 (7 / 2) = 3` in the analysis script, the literal `3` in the
report): a 2-point series is undefined everywhere, a 3-point series is
defined at its third date, and insufficient history yields a missing value,
never zero. -/
theorem rolling_min_periods (df : List Row) (s : String) (i : ℕ) :
    plot_rolling_avg_roll df 7 s = chart_04_roll df s
  ∧ ((chart_04_roll df s)[i]? = some none ↔
      i < (scenarioSeries df s).length ∧ min (i + 1) 7 < 3)
  ∧ ((chart_11_rollvar df s)[i]? = some none ↔
      i < (scenarioSeries df s).length ∧ min (i + 1) 7 < 3)
  ∧ (∀ v : ℚ, (chart_04_roll df s)[i]? = some (some v) →
      3 ≤ min (i + 1) 7 ∧ v = listMean (windowAt 7 (scenarioSeries df s) i))
  ∧ ((scenarioSeries df s).length = 2 → ∀ o ∈ chart_04_roll df s, o = none)
  ∧ ((scenarioSeries df s).length = 3 →
      (chart_04_roll df s)[2]? = some (some (listMean (scenarioSeries df s)))) := by
  refine ⟨rfl, ?_, ?_, ?_, ?_, ?_⟩
  · rw [chart_04_roll, rollingMean, rollingApply_getElem?]
    by_cases h1 : i < (scenarioSeries df s).length
    · rw [if_pos h1]
      by_cases h2 : 3 ≤ min (i + 1) 7
      · rw [if_pos h2]
        simp only [Option.some.injEq, reduceCtorEq, false_iff, not_and]
        intro _
        omega
      · rw [if_neg h2]
        simp only [true_iff]
        exact ⟨h1, by omega⟩
    · rw [if_neg h1]
      simp [h1]
  · rw [chart_11_rollvar, rollingApply_getElem?]
    by_cases h1 : i < (scenarioSeries df s).length
    · rw [if_pos h1]
      by_cases h2 : 3 ≤ min (i + 1) 7
      · rw [if_pos h2]
        simp only [Option.some.injEq, reduceCtorEq, false_iff, not_and]
        intro _
        omega
      · rw [if_neg h2]
        simp only [true_iff]
        exact ⟨h1, by omega⟩
    · rw [if_neg h1]
      simp [h1]
  · intro v
    rw [chart_04_roll, rollingMean, rollingApply_getElem?]
    split_ifs with h1 h2
    · intro hv
      refine ⟨h2, ?_⟩
      simpa using hv.symm
    · intro hv
      simp at hv
    · intro hv
      cases hv
  · intro hlen o ho
    rcases List.mem_iff_getElem?.mp ho with ⟨j, hj⟩
    rw [chart_04_roll, rollingMean, rollingApply_getElem?, hlen] at hj
    split_ifs at hj with h1 h2
    · exact absurd h2 (by omega)
    · exact (Option.some_inj.mp hj).symm
  · intro hlen
    rw [chart_04_roll, rollingMean, rollingApply_getElem?, hlen, if_pos (by omega),
      if_pos (by omega)]
    have hwin : windowAt 7 (scenarioSeries df s) 2 = scenarioSeries df s := by
      unfold windowAt
      rw [List.take_of_length_le (by omega)]
      simp
    rw [hwin]

theorem foldl_min_le_init (l : List ℤ) (a : ℤ) : l.foldl min a ≤ a := by
  induction l generalizing a with
  | nil => simp
  | cons b t ih =>
    simpa using le_trans (ih (min a b)) (min_le_left a b)

theorem foldl_min_le_mem (l : List ℤ) (a x : ℤ) (hx : x ∈ l) :
    l.foldl min a ≤ x := by
  induction l generalizing a with
  | nil => cases hx
  | cons b t ih =>
    rcases List.mem_cons.mp hx with h | h
    · subst h
      simpa using le_trans (foldl_min_le_init t (min a x)) (min_le_right a x)
    · simpa using ih (min a b) h

theorem init_le_foldl_max (l : List ℤ) (a : ℤ) : a ≤ l.foldl max a := by
  induction l generalizing a with
  | nil => simp
  | cons b t ih =>
    simpa using le_trans (le_max_left a b) (ih (max a b))

theorem mem_le_foldl_max (l : List ℤ) (a x : ℤ) (hx : x ∈ l) :
    x ≤ l.foldl max a := by
  induction l generalizing a with
  | nil => cases hx
  | cons b t ih =>
    rcases List.mem_cons.mp hx with h | h
    · subst h
      simpa using le_trans (le_max_right a x) (init_le_foldl_max t (max a x))
    · simpa using ih (max a b) h

theorem mem_intRange (lo : ℤ) (n : ℕ) (x : ℤ) :
    x ∈ intRange lo n ↔ lo ≤ x ∧ x < lo + n := by
  induction n generalizing lo with
  | zero =>
    simp only [intRange, List.not_mem_nil, false_iff]
    omega
  | succ m ih =>
    simp only [intRange, List.mem_cons, ih]
    omega

theorem mem_weekRange {ws : List ℤ} {x : ℤ} (hx : x ∈ ws) : x ∈ weekRange ws := by
  cases ws with
  | nil => cases hx
  | cons w rest =>
    have hlo : rest.foldl min w ≤ x := by
      rcases List.mem_cons.mp hx with h | h
      · exact h ▸ foldl_min_le_init rest w
      · exact foldl_min_le_mem rest w x h
    have hhi : x ≤ rest.foldl max w := by
      rcases List.mem_cons.mp hx with h | h
      · exact h ▸ init_le_foldl_max rest w
      · exact mem_le_foldl_max rest w x h
    simp only [weekRange, mem_intRange]
    omega

/-- C4: the weekly resample of the acceleration frame produces one value
per calendar week of the sample range; each week's value is the arithmetic
mean of the defined acceleration samples falling in that week, and a week
with no defined sample stays missing (NaN), never zero. -/
theorem weekly_resample_defined_mean (df : List Row) (s : String) (w : ℤ)
    (hw : w ∈ weeklyWeeks df) :
    ((w, weeklyValue (accelSamples df s) w) ∈ plot_weekly_accel df s)
  ∧ (weekFinValues (accelSamples df s) w = [] →
      weeklyValue (accelSamples df s) w = .na)
  ∧ (∀ vs : List ℚ, weekFinValues (accelSamples df s) w = vs → vs ≠ [] →
      weeklyValue (accelSamples df s) w = .fin (vs.sum / vs.length))
  ∧ ((plot_weekly_accel df s).map Prod.fst = weeklyWeeks df)
  ∧ (∀ d ∈ accelDates df, weekOf d ∈ weeklyWeeks df) := by
  refine ⟨?_, ?_, ?_, ?_, ?_⟩
  · rw [plot_weekly_accel, List.mem_map]
    exact ⟨w, hw, rfl⟩
  · intro h
    rw [weeklyValue, h]
    rfl
  · intro vs hvs hne
    rw [weeklyValue, hvs, if_neg (by simpa using hne)]
  · rw [plot_weekly_accel, List.map_map]
    exact List.map_id _
  · intro d hd
    rw [weeklyWeeks]
    exact mem_weekRange (List.mem_map.mpr ⟨d, hd, rfl⟩)

/-- C7: the Extractor drops every raw row whose duration or end timestamp
fails to parse (contributing nothing, not zero), and emits exactly one
output row per calendar day of the surviving rows, whose minutes equal the
sum of the parsed durations of that day's surviving rows. -/
theorem extract_daily_reduction (rows : List RawRow) :
    extract rows = extract (rows.filter survives)
  ∧ ((extract rows).map Row.date).Nodup
  ∧ (∀ d : Date, (∃ out ∈ extract rows, out.date = d) ↔
      ∃ r ∈ rows, survives r = true ∧ rowDate r = d)
  ∧ (∀ out ∈ extract rows, out.minutes =
      (((rows.filter survives).filter
        (fun r => decide (rowDate r = out.date))).map rowMinutes).sum) := by
  have hf : (rows.filter survives).filter survives = rows.filter survives := by
    rw [List.filter_filter]
    simp
  refine ⟨?_, ?_, ?_, ?_⟩
  · unfold extract extractDates dayTotal
    rw [hf]
  · have hmap : (extract rows).map Row.date = extractDates rows := by
      unfold extract
      rw [List.map_map]
      exact List.map_id _
    rw [hmap]
    unfold extractDates
    exact ((List.perm_insertionSort _ _).nodup_iff).mpr (List.nodup_dedup _)
  · intro d
    have h1 : (∃ out ∈ extract rows, out.date = d) ↔ d ∈ extractDates rows := by
      constructor
      · rintro ⟨out, hout, hdate⟩
        rcases List.mem_map.mp hout with ⟨d', hd', rfl⟩
        exact hdate ▸ hd'
      · intro hd
        exact ⟨⟨d, assign_scenario d, dayTotal rows d⟩,
          List.mem_map.mpr ⟨d, hd, rfl⟩, rfl⟩
    have h2 : d ∈ extractDates rows ↔
        ∃ r ∈ rows, survives r = true ∧ rowDate r = d := by
      unfold extractDates
      rw [(List.perm_insertionSort _ _).mem_iff, List.mem_dedup, List.mem_map]
      constructor
      · rintro ⟨r, hr, rfl⟩
        rw [List.mem_filter] at hr
        exact ⟨r, hr.1, hr.2, rfl⟩
      · rintro ⟨r, hr, hs, rfl⟩
        exact ⟨r, List.mem_filter.mpr ⟨hr, hs⟩, rfl⟩
    exact h1.trans h2
  · intro out hout
    rcases List.mem_map.mp hout with ⟨d', hd', rfl⟩
    rfl

/-- Raw input whose only row is dropped by the duration-presence filter:
zero rows survive. -/
def c6rows : List RawRow := [⟨some ⟨2025, 10, 1⟩, true, false, none⟩]

/-- C6 counterexample: when the source document is present but zero rows
survive filtering, `extract` returns an empty table and `main` succeeds
(exit code 0), writing a header-only canonical store — it does not fail
with an EmptyResult-style error. -/
theorem extract_zero_rows_counterexample :
    extractRun (some c6rows) = .ok []
  ∧ mainRun (some c6rows) none = (some (storeContents []), 0)
  ∧ storeContents [] = "date;scenario;minutes\n" :=
  ⟨rfl, rfl, rfl⟩

/-- C6 (amended): the Extractor fails exactly when the source document is
absent (`FileNotFoundError`); with the document present it always
succeeds, even when zero rows survive filtering. -/
theorem extractRun_error_iff (input : Option (List RawRow)) :
    ((∃ e, extractRun input = .error e) ↔ input = none)
  ∧ (∀ rows, extractRun (some rows) = .ok (extract rows)) := by
  refine ⟨?_, fun _ => rfl⟩
  cases input <;> simp [extractRun]

/-- C8: extraction is deterministic and idempotent — a run on a given raw
input overwrites the canonical store with contents that depend only on
that input (not on the prior store), so re-running on an unchanged input
reproduces byte-identical store contents. -/
theorem extraction_idempotent (rows : List RawRow) (s1 s2 : Option String) :
    mainRun (some rows) s1 = mainRun (some rows) s2
  ∧ mainRun (some rows) ((mainRun (some rows) s1).1) = mainRun (some rows) s1
  ∧ (mainRun (some rows) s1).1 = some (storeContents (extract rows)) :=
  ⟨rfl, rfl, rfl⟩

/-- A raw row whose duration cell parses to a negative number. -/
def c9badrow : RawRow := ⟨some ⟨2025, 10, 1⟩, false, false, some (-5)⟩

/-- C9 counterexample: the Extractor performs no sign validation, so a raw
input whose duration parses negative yields a canonical-store row with
negative minutes. -/
theorem extract_nonneg_counterexample :
    ∃ out ∈ extract [c9badrow], out.minutes < 0 :=
  ⟨⟨⟨2025, 10, 1⟩, "Типовой", -5⟩, by with_unfolding_all decide⟩

/-- C9 (amended): when every parsed duration of the raw input is
non-negative, every per-day sum the Extractor outputs is non-negative. -/
theorem extract_nonneg_amended (rows : List RawRow)
    (h : ∀ r ∈ rows, 0 ≤ r.minutes_num.getD 0) :
    ∀ out ∈ extract rows, 0 ≤ out.minutes := by
  intro out hout
  rcases List.mem_map.mp hout with ⟨d, hd, rfl⟩
  show 0 ≤ dayTotal rows d
  unfold dayTotal
  refine List.sum_nonneg ?_
  intro x hx
  rcases List.mem_map.mp hx with ⟨r, hr, rfl⟩
  rw [List.mem_filter] at hr
  have hr0 := hr.1
  rw [List.mem_filter] at hr0
  exact h r hr0.1

/-- Raw input with one surviving non-negative duration. -/
def c9okrows : List RawRow := [⟨some ⟨2025, 10, 1⟩, false, false, some 3⟩]

theorem extract_nonneg_witness :
    (∀ r ∈ c9okrows, 0 ≤ r.minutes_num.getD 0)
  ∧ 0 ≤ (Row.mk ⟨2025, 10, 1⟩ "Типовой" 3).minutes :=
  ⟨by decide, extract_nonneg_amended c9okrows (by decide) _
    (by with_unfolding_all decide)⟩

theorem improvementExpr_na_left (m : PyF) : improvementExpr .na m = .na := by
  rw [improvementExpr, pySub_na_left, pyDiv_na_left, pyMul_na_left]

/-- C10: the extended report validates nothing about the baseline: with the
baseline scenario absent from the data, `chart_19_improvement_bars`
completes without error and every improvement it computes is NaN (the
baseline mean is the mean of an empty selection), and the statistics table
renders an improvement of 0 for every scenario that has no improvement
entry — in particular for every scenario when the baseline is absent, and
always for the baseline row itself. -/
theorem report_no_baseline_validation (df : List Row)
    (h : base_col ∉ df.map Row.scenario) :
    chart_19_improvement_bars df =
      .ok (((uniqueScenarios df).filter (fun s => !decide (s = base_col))).map
        (fun s => (s, PyF.na)))
  ∧ (∀ s, improvementCellValue df s = .fin 0)
  ∧ (∀ df2 : List Row, improvementCellValue df2 base_col = .fin 0) := by
  have hnil : df.filter (fun r => decide (r.scenario = base_col)) = [] :=
    List.filter_eq_nil_iff.mpr fun r hr => by
      simp only [decide_eq_true_eq]
      intro hc
      exact h (List.mem_map.mpr ⟨r, hr, hc⟩)
  have hmean : pyMean (scenarioMinutes df base_col) = .na := by
    rw [scenarioMinutes, hnil]
    rfl
  refine ⟨?_, ?_, ?_⟩
  · simp only [chart_19_improvement_bars, hmean, improvementExpr_na_left]
  · intro s
    rw [improvementCellValue, statsImprovement,
      if_neg fun hc => h (List.mem_dedup.mp hc.1), Option.getD_none]
  · intro df2
    rw [improvementCellValue, statsImprovement, if_neg fun hc => hc.2 rfl,
      Option.getD_none]

/-- Loaded data that does not contain the baseline scenario. -/
def c10df : List Row := [⟨⟨2025, 10, 9⟩, "Другой", 5⟩]

theorem report_no_baseline_witness :
    (base_col ∉ c10df.map Row.scenario)
  ∧ chart_19_improvement_bars c10df =
      .ok (((uniqueScenarios c10df).filter (fun s => !decide (s = base_col))).map
        (fun s => (s, PyF.na)))
  ∧ improvementCellValue c10df "Другой" = PyF.fin 0 :=
  ⟨by decide, (report_no_baseline_validation c10df (by decide)).1,
    (report_no_baseline_validation c10df (by decide)).2.1 "Другой"⟩

/-- Loaded data with baseline 100 and alternative 50 on the same date. -/
def c1df : List Row :=
  [⟨⟨2025, 10, 9⟩, "Типовой", 100⟩, ⟨⟨2025, 10, 9⟩, "Без дублей обменов", 50⟩]

theorem compute_acceleration_cells_witness :
    pivotCell c1df ⟨2025, 10, 9⟩ base_col = some 100
  ∧ pivotCell c1df ⟨2025, 10, 9⟩ "Без дублей обменов" = some 50
  ∧ accelCell c1df ⟨2025, 10, 9⟩ "Без дублей обменов" = PyF.fin (100 / 50) :=
  ⟨by with_unfolding_all decide, by with_unfolding_all decide,
    (compute_acceleration_cells c1df ⟨2025, 10, 9⟩ "Без дублей обменов").1 100 50
      (by with_unfolding_all decide) (by with_unfolding_all decide) (by decide)⟩

/-- A 3-point single-scenario series for the rolling statistics. -/
def c3df : List Row :=
  [⟨⟨2025, 10, 1⟩, "Типовой", 10⟩, ⟨⟨2025, 10, 2⟩, "Типовой", 20⟩,
   ⟨⟨2025, 10, 3⟩, "Типовой", 30⟩]

theorem rolling_min_periods_witness :
    (scenarioSeries c3df "Типовой").length = 3
  ∧ (chart_04_roll c3df "Типовой")[2]? =
      some (some (listMean (scenarioSeries c3df "Типовой")))
  ∧ (chart_04_roll c3df "Типовой")[1]? = some none :=
  ⟨by decide, (rolling_min_periods c3df "Типовой" 2).2.2.2.2.2 (by decide),
    ((rolling_min_periods c3df "Типовой" 1).2.1).mpr ⟨by decide, by decide⟩⟩

/-- Two consecutive same-week dates with acceleration samples 3/2 and 5/2
against the baseline. -/
def c4df : List Row :=
  [⟨⟨2025, 10, 20⟩, "Типовой", 150⟩, ⟨⟨2025, 10, 20⟩, "Другой", 100⟩,
   ⟨⟨2025, 10, 21⟩, "Типовой", 250⟩, ⟨⟨2025, 10, 21⟩, "Другой", 100⟩]

theorem weekly_resample_witness :
    ((2912 : ℤ) ∈ weeklyWeeks c4df)
  ∧ ((2912 : ℤ), weeklyValue (accelSamples c4df "Другой") 2912) ∈
      plot_weekly_accel c4df "Другой"
  ∧ weeklyValue (accelSamples c4df "Другой") 2912 = PyF.fin 2 :=
  ⟨by with_unfolding_all decide,
    (weekly_resample_defined_mean c4df "Другой" 2912 (by with_unfolding_all decide)).1,
    by with_unfolding_all decide⟩

/-- Two surviving same-day rows (3 and 4 minutes) and one row with an
unparsable end timestamp. -/
def c7rows : List RawRow :=
  [⟨some ⟨2025, 10, 1⟩, false, false, some 3⟩,
   ⟨none, false, false, some 5⟩,
   ⟨some ⟨2025, 10, 1⟩, false, false, some 4⟩]

theorem extract_daily_reduction_witness :
    ((⟨⟨2025, 10, 1⟩, "Типовой", 7⟩ : Row) ∈ extract c7rows)
  ∧ (⟨⟨2025, 10, 1⟩, "Типовой", 7⟩ : Row).minutes =
      (((c7rows.filter survives).filter
        (fun r => decide (rowDate r = (⟨⟨2025, 10, 1⟩, "Типовой", 7⟩ : Row).date))).map
          rowMinutes).sum :=
  ⟨by with_unfolding_all decide,
    (extract_daily_reduction c7rows).2.2.2 _ (by with_unfolding_all decide)⟩

end DuPipeline
